import Mathlib

/-!
Shallow embedding of the plugin host's core components:

* `src/src/services/playlist.ts` — the `PlaylistManager` class.  Its async
  methods are modelled as pure state transformers over an explicit
  `PlaylistState`, with the external audio device (`miniaudio_node`) and the
  filesystem abstracted into an `Env` oracle.  Each transformer returns the
  final state together with the ordered list of device calls it issued, the
  callbacks it fired, and an optional thrown error (TypeScript `throw` becomes
  `error = some _`; a `try/finally` path that resets `isBusy` before
  propagating is modelled by returning the post-`finally` state together with
  the error).  The single-threaded cooperative event loop means that within
  one sequential run no other task can flip the `isBusy` flag, so the
  `waitForIdle` pauses inside `nextTrack`/`previousTrack`/`goToTrack`/`resume`
  leave the state unchanged; the time-dependent behaviour of `waitForIdle`
  itself is modelled separately (`waitCheck`) with a `busy : Nat → Bool`
  oracle standing for interleaved tasks.

* `src/src/services/RegisterPlugin.ts` — the `HelperRegistry`.  Because the
  snapshot claim is about JavaScript object aliasing, the registry is
  modelled over a tiny explicit heap of string-to-handler maps: `register`
  mutates the cell the registry owns in place, `getHelpers` allocates a fresh
  cell holding a copy (the spread `\x7b ...this.helpers \x7d`).

* The Rule Engine (`processEvent`) lives in the external `trigger_system/node`
  package, which is not part of the repository sources; it is modelled from
  the spec (see `processEvent` below).
-/

/-- A JavaScript string, embedded as its character sequence so that the
string operations the playlist performs (`split`, `pop`, `toLowerCase`,
`trim`) stay kernel-computable. -/
abbrev JSStr := List Char

/-- JavaScript `s.split(sep)` for a one-character separator: always returns
at least one (possibly empty) piece. -/
def jsSplitOn (sep : Char) : JSStr → List JSStr
  | [] => [[]]
  | c :: cs =>
    match jsSplitOn sep cs with
    | [] => [[]]
    | piece :: rest =>
      if c = sep then [] :: piece :: rest else (c :: piece) :: rest

/-- JavaScript `s.toLowerCase()` (over the character sequence). -/
def jsToLower (s : JSStr) : JSStr := s.map Char.toLower

/-- JavaScript `s.trim()`: strip whitespace from both ends. -/
def jsTrim (s : JSStr) : JSStr :=
  ((s.dropWhile Char.isWhitespace).reverse.dropWhile Char.isWhitespace).reverse

/-- A playlist track: a file path or an in-memory byte buffer
(`type Track = string | Buffer`). -/
inductive Track where
  | file (path : JSStr)
  | buffer (data : List Nat)
deriving DecidableEq, Repr

/-- A JavaScript falsiness test on a `Track` value: the empty string is falsy,
every other string and every `Buffer` object is truthy. -/
def Track.isFalsy : Track → Bool
  | .file p => p.isEmpty
  | .buffer _ => false

/-- Calls issued to the underlying `miniaudio_node` player. -/
inductive DevCall where
  | stop
  | loadFile (path : JSStr)
  | loadBuffer
  | play
deriving DecidableEq, Repr

/-- Callbacks the manager fires (`onTrackStart`, `onTrackEnd`,
`onPlaylistEnd`). -/
inductive PEvent where
  | trackStart (idx : Nat)
  | trackEnd (idx : Nat)
  | playlistEnd
deriving DecidableEq, Repr

/-- Errors the playlist methods can throw; mirrors the message constants used
by `playlist.ts`. -/
inductive PErr where
  | noTracks
  | unsupportedFormat (track : JSStr)
  | fileNotFound (track : JSStr)
  | invalidIndex (idx : Int)
  | deviceError
deriving DecidableEq, Repr

/-- Oracle for everything external to the manager: filesystem queries,
`isFormatSupported`, and whether each device call succeeds or throws.
`playerIsPlaying` is the device state the poll in `monitorPlayback`
observes. -/
structure Env where
  formatSupported : JSStr → Bool
  fileExists : JSStr → Bool
  stopOk : Bool
  loadFileOk : JSStr → Bool
  loadBufferOk : Bool
  playOk : Bool
  isPlayingOk : Bool
  playerIsPlaying : Bool

/-- The mutable fields of `PlaylistManager`.  `currentTrackIndex` is kept as a
`Nat`: it starts at 0 and every mutation in the source preserves
non-negativity (`Math.max(0, i - 1)` is truncated subtraction, the decrement
in `removeTrack` only runs when the index is positive).  `monitorActive`
models whether `monitorInterval` is non-null. -/
structure PlaylistState where
  tracks : List Track
  currentTrackIndex : Nat
  isPlaying : Bool
  loop : Bool
  isBusy : Bool
  isStopping : Bool
  monitorActive : Bool
deriving DecidableEq, Repr

/-- Result of running one (possibly compound) playlist operation: final state,
device calls in order, callbacks fired in order, and the thrown error if the
operation did not return normally. -/
structure StepResult where
  state : PlaylistState
  calls : List DevCall
  events : List PEvent
  error : Option PErr
deriving DecidableEq, Repr

/-- A normal return with no device interaction. -/
def StepResult.pure (s : PlaylistState) : StepResult :=
  { state := s, calls := [], events := [], error := none }

namespace Playlist

/-- The extension candidate computed by
`track.split(".").pop()?.toLowerCase()` — the substring after the last dot
(the whole string when there is no dot, the empty string for a trailing
dot). -/
def extOf (p : JSStr) : JSStr :=
  jsToLower ((jsSplitOn '.' p).getLastD [])

/-- The per-entry validation of `loadTracks`: a string must have a supported
extension (a falsy — empty — extension is rejected) and name an existing
file; a `Buffer` is assumed valid ("or let player fail later"). -/
def keepTrack (env : Env) : Track → Bool
  | .file p =>
      let ext := extOf p
      !ext.isEmpty && env.formatSupported ext && env.fileExists p
  | .buffer _ => true

/-- `loadTracks(tracks)`: replaces `this.tracks` with the validated entries;
invalid entries are skipped with a `console.warn`.  Never throws. -/
def loadTracks (env : Env) (input : List Track) (s : PlaylistState) : StepResult :=
  StepResult.pure { s with tracks := input.filter (keepTrack env) }

/-- `addTrack(track)`: validates a string track (throwing on an unsupported
extension or a missing file) and appends; a `Buffer` is appended without
validation. -/
def addTrack (env : Env) (t : Track) (s : PlaylistState) : StepResult :=
  match t with
  | .file p =>
      let ext := extOf p
      if ext.isEmpty ∨ ¬ env.formatSupported ext then
        { state := s, calls := [], events := [], error := some (.unsupportedFormat p) }
      else if ¬ env.fileExists p then
        { state := s, calls := [], events := [], error := some (.fileNotFound p) }
      else
        StepResult.pure { s with tracks := s.tracks ++ [t] }
  | .buffer _ =>
      StepResult.pure { s with tracks := s.tracks ++ [t] }

/-- `playCurrentTrack()`.  Path by path from the source:
1. `isBusy` → logged no-op return;
2. empty playlist → throw `NO_TRACKS`;
3. set `isBusy`, clear `isStopping`, clear the monitor interval;
4. a missing (out-of-range) or falsy current track → plain return
   (the `finally` clears `isBusy`);
5. if something is playing, `player.stop()` (a throw here propagates through
   the `finally`) and a settle delay;
6. load: an empty/whitespace path or an empty buffer → `console.error` and a
   plain return; a load failure → `isPlaying = false`, rethrow;
7. `player.play()` — on failure `isPlaying = false` and rethrow, on success
   `isPlaying = true`, fire `onTrackStart`, start the monitor;
8. `finally`: `isBusy = false`. -/
def playCurrentTrack (env : Env) (s : PlaylistState) : StepResult :=
  if s.isBusy then
    StepResult.pure s
  else if s.tracks.length = 0 then
    { state := s, calls := [], events := [], error := some .noTracks }
  else
    let s1 : PlaylistState :=
      { s with isBusy := true, isStopping := false, monitorActive := false }
    match s1.tracks.get? s1.currentTrackIndex with
    | none => StepResult.pure { s1 with isBusy := false }
    | some t =>
      if t.isFalsy then
        StepResult.pure { s1 with isBusy := false }
      else
        let stopCalls : List DevCall := if s1.isPlaying then [.stop] else []
        if s1.isPlaying ∧ ¬ env.stopOk then
          { state := { s1 with isBusy := false }, calls := stopCalls,
            events := [], error := some .deviceError }
        else
          match t with
          | .file p =>
            if (jsTrim p).isEmpty then
              { state := { s1 with isBusy := false }, calls := stopCalls,
                events := [], error := none }
            else if ¬ env.loadFileOk p then
              { state := { s1 with isPlaying := false, isBusy := false },
                calls := stopCalls ++ [.loadFile p], events := [],
                error := some .deviceError }
            else if ¬ env.playOk then
              { state := { s1 with isPlaying := false, isBusy := false },
                calls := stopCalls ++ [.loadFile p, .play], events := [],
                error := some .deviceError }
            else
              let s2 : PlaylistState :=
                { s1 with isPlaying := true, monitorActive := true, isBusy := false }
              { state := s2, calls := stopCalls ++ [.loadFile p, .play],
                events := [.trackStart s1.currentTrackIndex], error := none }
          | .buffer d =>
            if d.length = 0 then
              { state := { s1 with isBusy := false }, calls := stopCalls,
                events := [], error := none }
            else if ¬ env.loadBufferOk then
              { state := { s1 with isPlaying := false, isBusy := false },
                calls := stopCalls ++ [.loadBuffer], events := [],
                error := some .deviceError }
            else if ¬ env.playOk then
              { state := { s1 with isPlaying := false, isBusy := false },
                calls := stopCalls ++ [.loadBuffer, .play], events := [],
                error := some .deviceError }
            else
              let s2 : PlaylistState :=
                { s1 with isPlaying := true, monitorActive := true, isBusy := false }
              { state := s2, calls := stopCalls ++ [.loadBuffer, .play],
                events := [.trackStart s1.currentTrackIndex], error := none }

/-- The first statements of `stop()`: raise `isStopping` and clear the
monitor interval.  They run before the device is halted. -/
def stopBegin (s : PlaylistState) : PlaylistState :=
  { s with isStopping := true, monitorActive := false }

/-- `stop()`: flag first, then `player.stop()` inside `try/catch` (a device
failure is only logged), then `isPlaying = false`, `currentTrackIndex = 0`,
`isBusy = false`.  Never throws. -/
def stop (env : Env) (s : PlaylistState) : StepResult :=
  let s1 := stopBegin s
  { state := { s1 with isPlaying := false, currentTrackIndex := 0, isBusy := false },
    calls := [.stop], events := [], error := none }

/-- `nextTrack()`: an eventual `waitForIdle` pause leaves the state unchanged
in the sequential model; then the index is incremented, the end of the
playlist either loops to 0 or fires `onPlaylistEnd` and stops, and otherwise
(after a short delay) `playCurrentTrack` runs. -/
def nextTrack (env : Env) (s : PlaylistState) : StepResult :=
  let s1 : PlaylistState := { s with currentTrackIndex := s.currentTrackIndex + 1 }
  if s1.tracks.length ≤ s1.currentTrackIndex then
    if s1.loop then
      playCurrentTrack env { s1 with currentTrackIndex := 0 }
    else
      { state := { s1 with isPlaying := false, monitorActive := false },
        calls := [], events := [.playlistEnd], error := none }
  else
    playCurrentTrack env s1

/-- `previousTrack()`: `Math.max(0, i - 1)` is truncated subtraction on
`Nat`; then `playCurrentTrack`. -/
def previousTrack (env : Env) (s : PlaylistState) : StepResult :=
  playCurrentTrack env { s with currentTrackIndex := s.currentTrackIndex - 1 }

/-- `goToTrack(index)`: throws on an out-of-range index, otherwise jumps and
plays.  The argument is an `Int` so a negative input is representable. -/
def goToTrack (env : Env) (i : Int) (s : PlaylistState) : StepResult :=
  if i < 0 ∨ (s.tracks.length : Int) ≤ i then
    { state := s, calls := [], events := [], error := some (.invalidIndex i) }
  else
    playCurrentTrack env { s with currentTrackIndex := i.toNat }

/-- `removeTrack(index)`: out-of-range returns `null`; otherwise the track is
spliced out, the cursor is decremented when a preceding track was removed, and
removing the currently playing track runs `stop()` (whose body is synchronous)
followed by a clamp that is vacuous after the reset to 0.  Returns the removed
track. -/
def removeTrack (env : Env) (i : Int) (s : PlaylistState) :
    StepResult × Option Track :=
  if i < 0 ∨ (s.tracks.length : Int) ≤ i then
    (StepResult.pure s, none)
  else
    let idx := i.toNat
    let removed := s.tracks.get? idx
    let s1 : PlaylistState := { s with tracks := s.tracks.eraseIdx idx }
    if idx < s.currentTrackIndex then
      (StepResult.pure { s1 with currentTrackIndex := s.currentTrackIndex - 1 },
       removed)
    else if idx = s.currentTrackIndex ∧ s.isPlaying then
      -- `this.stop()` runs synchronously here; afterwards
      -- `currentTrackIndex = 0`, so the clamp `max(0, length - 1)` only
      -- applies when `0 ≥ length` while `length > 0` — never.
      let s2 : PlaylistState :=
        { s1 with isStopping := true, monitorActive := false, isPlaying := false,
                  currentTrackIndex := 0, isBusy := false }
      ({ state := s2, calls := [.stop], events := [], error := none }, removed)
    else
      (StepResult.pure s1, removed)

/-- One tick of the `monitorPlayback` interval callback, together with the
`setImmediate` continuation that advances the playlist.  On "was playing, now
not playing": clear the interval, drop `isPlaying`, fire `onTrackEnd` when the
current track exists, then (unless stopping) run `nextTrack`. -/
def monitorTick (env : Env) (s : PlaylistState) : StepResult :=
  if s.isStopping then
    StepResult.pure s
  else if ¬ env.isPlayingOk then
    -- `player.isPlaying()` threw: catch clears the interval and `isPlaying`.
    StepResult.pure { s with monitorActive := false, isPlaying := false }
  else if ¬ env.playerIsPlaying ∧ s.isPlaying then
    let s1 : PlaylistState := { s with monitorActive := false, isPlaying := false }
    let endEvents : List PEvent :=
      match s1.tracks.get? s1.currentTrackIndex with
      | some t => if t.isFalsy then [] else [.trackEnd s1.currentTrackIndex]
      | none => []
    let r := nextTrack env s1
    { r with events := endEvents ++ r.events }
  else
    StepResult.pure s

/-- `TIMING.IDLE_TIMEOUT` from `src/constants.ts`. -/
def IDLE_TIMEOUT : Nat := 1000

/-- `TIMING.WAIT_FOR_IDLE_TIMEOUT` from `src/constants.ts`. -/
def WAIT_FOR_IDLE_TIMEOUT : Nat := 5000

/-- The polling loop inside `waitForIdle`: at elapsed time `t` it resolves
when `isBusy` reads false, resolves with a warning when `t` exceeds the
timeout, and otherwise re-checks 50 ms later.  `busy` is the time-indexed
value of the flag (other interleaved tasks may clear it).  Returns the elapsed
time at resolution and whether the timeout warning fired. -/
def waitCheck (busy : Nat → Bool) (timeoutMs : Nat) (t : Nat) : Nat × Bool :=
  if busy t = false then (t, false)
  else if timeoutMs < t then (t, true)
  else waitCheck busy timeoutMs (t + 50)
termination_by timeoutMs + 1 - t

/-- `waitForIdle(timeoutMs)` starts polling at elapsed time 0. -/
def waitForIdle (busy : Nat → Bool) (timeoutMs : Nat) : Nat × Bool :=
  waitCheck busy timeoutMs 0

end Playlist

namespace HelperReg

/-- The value stored under a helper name.  Handler functions are opaque to
the registry, so they are represented by identifiers. -/
abbrev HMap := List (String × Nat)

/-- JavaScript property assignment `this.helpers[name] = fn`: replaces any
existing binding for `name`. -/
def hset (m : HMap) (name : String) (v : Nat) : HMap :=
  m.filter (fun p => p.1 ≠ name) ++ [(name, v)]

/-- A heap of helper maps; an address is an index into `cells`.  The
registry's own `helpers` object lives in one cell, and every map that
`getHelpers` returns is a freshly allocated cell, capturing JavaScript object
identity. -/
structure Heap where
  cells : List HMap
deriving DecidableEq, Repr

/-- Dereference an address (a dangling address reads as the empty map). -/
def Heap.read (h : Heap) (a : Nat) : HMap :=
  (h.cells.get? a).getD []

/-- In-place mutation of the object at address `a`. -/
def Heap.write (h : Heap) (a : Nat) (m : HMap) : Heap :=
  ⟨h.cells.set a m⟩

/-- Allocate a fresh object; its address is the previous cell count. -/
def Heap.alloc (h : Heap) (m : HMap) : Heap × Nat :=
  (⟨h.cells ++ [m]⟩, h.cells.length)

/-- `HelperRegistry.register(name, fn)`: mutates the registry's `helpers`
object (at address `reg`) in place. -/
def register (h : Heap) (reg : Nat) (name : String) (fn : Nat) : Heap :=
  h.write reg (hset (h.read reg) name fn)

/-- `HelperRegistry.getHelpers()`: returns `\x7b ...this.helpers \x7d` — a
freshly allocated shallow copy of the registry's map. -/
def getHelpers (h : Heap) (reg : Nat) : Heap × Nat :=
  h.alloc (h.read reg)

end HelperReg

namespace Engine

/-- An action invocation `{ type, params }` of a rule. -/
structure ActionInvocation where
  type : String
  params : List (String × String)
deriving DecidableEq, Repr

/-- A rule record.  The condition is an opaque expression identifier
interpreted by an external evaluator oracle (`none` = "no condition"). -/
structure Rule where
  id : String
  eventName : String
  condition : Option Nat
  actions : List ActionInvocation
  enabled : Bool
deriving DecidableEq, Repr

/-- One action invocation carried out during a dispatch: which rule, the
position of the action in that rule's list, the invocation itself, and
whether the handler succeeded (`ok = false` = the handler threw and the
failure was caught and logged). -/
structure Executed where
  ruleId : String
  actionIdx : Nat
  action : ActionInvocation
  ok : Bool
deriving DecidableEq, Repr

/-- Modelled from the spec: condition evaluation of the Rule Engine, whose
implementation (`trigger_system/node`) is not part of the repository sources.
A rule with no condition always matches; a condition-evaluation failure
(`evalCond` returns `none`) is caught and treated as "condition false" for
that rule only. -/
def condHolds (evalCond : Nat → Option Bool) (r : Rule) : Bool :=
  match r.condition with
  | none => true
  | some c => (evalCond c).getD false

/-- Modelled from the spec: sequential execution of one rule's actions by the
Rule Engine (`trigger_system/node`, not in the repository sources).  Each
action invocation failure (`fails ruleId idx = true`) is caught and logged,
and does not prevent the subsequent actions from running. -/
def runActions (fails : String → Nat → Bool) (rid : String)
    (acts : List ActionInvocation) : List Executed :=
  (acts.enum).map (fun p => ⟨rid, p.1, p.2, !(fails rid p.1)⟩)

/-- Modelled from the spec: `processEvent` of the Rule Engine
(`trigger_system/node`, not in the repository sources).  Fetch the current
rule snapshot, filter to enabled rules bound to the event name, evaluate each
condition (failures read as false), and run the actions of each satisfied
rule in declared order; every failure is isolated per rule / per action. -/
def processEvent (evalCond : Nat → Option Bool) (fails : String → Nat → Bool)
    (rules : List Rule) (eventName : String) : List Executed :=
  (rules.filter
      (fun r =>
        r.enabled && r.eventName == eventName && condHolds evalCond r)).flatMap
    (fun r => runActions fails r.id r.actions)

end Engine

/-! Derived predicates and concrete fixtures used by the verification. -/

/-- Number of `play` commands a run issued on the device. -/
def playsIn (r : StepResult) : Nat := r.calls.count .play

/-- The cursor invariant from the spec: `currentIndex` is in
`[0, tracks.length)` while playing (the lower bound is inherent to `Nat`). -/
def playingIndexInv (s : PlaylistState) : Bool :=
  !s.isPlaying || decide (s.currentTrackIndex < s.tracks.length)

/-- Conditions under which `playCurrentTrack` reaches the `player.play()`
call and returns without throwing: not busy, a non-empty playlist, a present
current track with a non-blank path / non-empty buffer, successful device
loads and play, and — when something is already playing — a successful
`player.stop()`. -/
def canPlayCleanly (env : Env) (s : PlaylistState) : Bool :=
  !s.isBusy && s.tracks.length != 0 &&
    (match s.tracks.get? s.currentTrackIndex with
     | none => false
     | some (.file p) =>
         !(jsTrim p).isEmpty && env.loadFileOk p && env.playOk &&
           (!s.isPlaying || env.stopOk)
     | some (.buffer d) =>
         (d.length != 0) && env.loadBufferOk && env.playOk &&
           (!s.isPlaying || env.stopOk))

/-- A track the device can load and play cleanly under `env` when nothing is
currently playing. -/
def playableTrack (env : Env) : Track → Bool
  | .file p => !(jsTrim p).isEmpty && env.loadFileOk p && env.playOk
  | .buffer d => (d.length != 0) && env.loadBufferOk && env.playOk

/-- An environment in which every format is supported, every file exists and
every device call succeeds. -/
def envAll : Env where
  formatSupported := fun _ => true
  fileExists := fun _ => true
  stopOk := true
  loadFileOk := fun _ => true
  loadBufferOk := true
  playOk := true
  isPlayingOk := true
  playerIsPlaying := true

/-- Like `envAll` but only the `mp3` extension is a supported format. -/
def envMp3 : Env := { envAll with formatSupported := fun e => e == "mp3".toList }

/-- Like `envAll` but the device poll reports that playback has finished. -/
def envDone : Env := { envAll with playerIsPlaying := false }

/-- The state of a freshly constructed manager. -/
def sEmpty : PlaylistState where
  tracks := []
  currentTrackIndex := 0
  isPlaying := false
  loop := false
  isBusy := false
  isStopping := false
  monitorActive := false

/-- One idle track loaded. -/
def sOne : PlaylistState := { sEmpty with tracks := [Track.file "a.mp3".toList] }

/-- One track loaded, an operation in flight. -/
def sBusy : PlaylistState := { sOne with isBusy := true }

/-- Three tracks, playing the last one. -/
def sPlay3 : PlaylistState :=
  { sEmpty with
      tracks := [Track.file "a.mp3".toList, Track.file "b.mp3".toList,
        Track.file "c.mp3".toList],
      currentTrackIndex := 2, isPlaying := true, monitorActive := true }

/-- Two buffer tracks, playing the first one. -/
def sTwo : PlaylistState :=
  { sEmpty with
      tracks := [Track.buffer [1, 2], Track.buffer [3, 4]],
      isPlaying := true, monitorActive := true }

/-! Theorems. -/

/-- On a state passing `canPlayCleanly`, `playCurrentTrack` reaches
`player.play()`: it returns without error, ends playing with the monitor
armed and the busy flag released, issues exactly one `play` device call and
fires exactly the `trackStart` callback. -/
theorem playCurrentTrack_clean (env : Env) (s : PlaylistState)
    (h : canPlayCleanly env s = true) :
    (Playlist.playCurrentTrack env s).state =
      { s with isPlaying := true, isStopping := false,
               monitorActive := true, isBusy := false } ∧
    (Playlist.playCurrentTrack env s).error = none ∧
    playsIn (Playlist.playCurrentTrack env s) = 1 ∧
    (Playlist.playCurrentTrack env s).events =
      [PEvent.trackStart s.currentTrackIndex] := by
  have hb : s.isBusy = false := by
    cases hbb : s.isBusy
    · rfl
    · simp [canPlayCleanly, hbb] at h
  have hlen : ¬ s.tracks.length = 0 := by
    intro h0
    simp [canPlayCleanly, h0] at h
  cases hg : s.tracks[s.currentTrackIndex]? with
  | none => simp [canPlayCleanly, hg, hb, hlen] at h
  | some t =>
    cases t with
    | file p =>
      have h' : ((¬ jsTrim p = [] ∧ env.loadFileOk p = true) ∧
          env.playOk = true) ∧ (s.isPlaying = false ∨ env.stopOk = true) := by
        simpa [canPlayCleanly, hg, hb, hlen] using h
      obtain ⟨⟨⟨h1, h2⟩, h3⟩, h4⟩ := h'
      have hpne : ¬ p = [] := fun hp => h1 (by rw [hp]; rfl)
      cases hsp : s.isPlaying with
      | false =>
        simp [Playlist.playCurrentTrack, hb, hlen, hg, hsp, Track.isFalsy,
          hpne, h1, h2, h3, playsIn]
      | true =>
        have hstop : env.stopOk = true := by
          rcases h4 with h' | h'
          · rw [hsp] at h'; exact absurd h' (by simp)
          · exact h'
        simp [Playlist.playCurrentTrack, hb, hlen, hg, hsp, hstop,
          Track.isFalsy, hpne, h1, h2, h3, playsIn]
    | buffer d =>
      have h' : ((¬ d = [] ∧ env.loadBufferOk = true) ∧
          env.playOk = true) ∧ (s.isPlaying = false ∨ env.stopOk = true) := by
        simpa [canPlayCleanly, hg, hb, hlen] using h
      obtain ⟨⟨⟨h1, h2⟩, h3⟩, h4⟩ := h'
      cases hsp : s.isPlaying with
      | false =>
        simp [Playlist.playCurrentTrack, hb, hlen, hg, hsp, Track.isFalsy,
          h1, h2, h3, playsIn]
      | true =>
        have hstop : env.stopOk = true := by
          rcases h4 with h' | h'
          · rw [hsp] at h'; exact absurd h' (by simp)
          · exact h'
        simp [Playlist.playCurrentTrack, hb, hlen, hg, hsp, hstop,
          Track.isFalsy, h1, h2, h3, playsIn]

/-- C1: while `isBusy` is set, `playCurrentTrack` is a silent no-op — it
returns normally (no throw), issues no device call and leaves every field of
the state unchanged; consequently a first call on a clean state plus a second
call arriving while the busy flag is held issue exactly one device `play`
call between them. -/
theorem C1_playCurrentTrack_reentrancy (env env₂ : Env)
    (s mid : PlaylistState) (hmid : mid.isBusy = true) :
    Playlist.playCurrentTrack env₂ mid = StepResult.pure mid ∧
    (canPlayCleanly env s = true →
      playsIn (Playlist.playCurrentTrack env s) +
        playsIn (Playlist.playCurrentTrack env₂ mid) = 1) := by
  have hnoop : Playlist.playCurrentTrack env₂ mid = StepResult.pure mid := by
    unfold Playlist.playCurrentTrack
    rw [if_pos hmid]
  refine ⟨hnoop, fun hc => ?_⟩
  rw [hnoop]
  have h1 := (playCurrentTrack_clean env s hc).2.2.1
  have h2 : playsIn (StepResult.pure mid) = 0 := rfl
  rw [h1, h2]

/-- Witness for C1: a concrete busy state is left untouched, and the
rapid-succession pair issues exactly one `play`. -/
theorem C1_playCurrentTrack_reentrancy_witness :
    Playlist.playCurrentTrack envAll sBusy = StepResult.pure sBusy ∧
    playsIn (Playlist.playCurrentTrack envAll sOne) +
      playsIn (Playlist.playCurrentTrack envAll sBusy) = 1 := by
  have h := C1_playCurrentTrack_reentrancy envAll envAll sOne sBusy (by decide)
  exact ⟨h.1, h.2 (by decide)⟩

/-- C5: `stop()` raises `isStopping` before the device is halted, never
throws — the device halt runs under `try/catch` and `env.stopOk` is
arbitrary — and completes with `currentTrackIndex = 0`, `isPlaying = false`
and `isBusy = false`. -/
theorem C5_stop_resets (env : Env) (s : PlaylistState) :
    (Playlist.stopBegin s).isStopping = true ∧
    Playlist.stop env s =
      { state := { s with
                     isStopping := true, monitorActive := false,
                     isPlaying := false, currentTrackIndex := 0,
                     isBusy := false },
        calls := [DevCall.stop], events := [], error := none } :=
  ⟨rfl, rfl⟩

/-- C9: `loadTracks` replaces the whole track list — the resulting tracks are
computed from the input alone (any two prior states yield the same list, and
the result has no more tracks than the input, so nothing is appended) — and
leaves `currentTrackIndex` unchanged, never throwing. -/
theorem C9_loadTracks_replaces (env : Env) (input : List Track)
    (s s' : PlaylistState) :
    (Playlist.loadTracks env input s).error = none ∧
    (Playlist.loadTracks env input s).state.currentTrackIndex =
      s.currentTrackIndex ∧
    (Playlist.loadTracks env input s).state.tracks =
      (Playlist.loadTracks env input s').state.tracks ∧
    (Playlist.loadTracks env input s).state.tracks.length ≤ input.length :=
  ⟨rfl, rfl, rfl, List.length_filter_le _ _⟩

/-- C4 counterexample: the claim requires a buffer entry to be validated for
non-emptiness by `loadTracks`, but the code keeps every buffer ("assume
buffers are valid"): loading the single empty buffer yields a track count of
1, not 0, with no error. -/
theorem C4_counterexample :
    (Playlist.loadTracks envAll [Track.buffer []] sEmpty).error = none ∧
    (Playlist.loadTracks envAll [Track.buffer []] sEmpty).state.tracks =
      [Track.buffer []] := by
  exact ⟨rfl, rfl⟩

/-- C4 amended: `loadTracks` never throws; each string entry is validated
(non-empty supported extension and file existence) and dropped with a warning
when invalid, while every buffer entry is accepted without validation
(emptiness is only caught later at playback time); the resulting track count
equals the number of entries passing these checks.  In particular one
unsupported-extension entry plus two valid entries yields a track count
of 2. -/
theorem C4_loadTracks_validation (env : Env) (input : List Track)
    (s : PlaylistState) :
    (Playlist.loadTracks env input s).error = none ∧
    (Playlist.loadTracks env input s).state.tracks.length =
      input.countP (fun t =>
        match t with
        | .file p => !(Playlist.extOf p).isEmpty &&
            env.formatSupported (Playlist.extOf p) && env.fileExists p
        | .buffer _ => true) ∧
    (Playlist.loadTracks envMp3
        [Track.file "x.xyz".toList, Track.file "a.mp3".toList,
          Track.file "b.mp3".toList] sEmpty).state.tracks.length = 2 := by
  refine ⟨rfl, ?_, by decide⟩
  show (input.filter (Playlist.keepTrack env)).length = _
  rw [← List.countP_eq_length_filter]
  refine congrFun (congrArg List.countP (funext fun t => ?_)) input
  cases t <;> rfl

/-- C10: `addTrack`, unlike `loadTracks`, fails loudly and atomically — a
string track with an unsupported (or empty) extension, or one whose file does
not exist, makes it throw and leaves the whole state (in particular the track
list) unchanged; a buffer track is appended without any validation and the
call never throws. -/
theorem C10_addTrack_atomic (env : Env) (s : PlaylistState) :
    (∀ p, ((Playlist.extOf p).isEmpty = true ∨
        env.formatSupported (Playlist.extOf p) = false) →
      (Playlist.addTrack env (Track.file p) s).error.isSome = true ∧
      (Playlist.addTrack env (Track.file p) s).state = s) ∧
    (∀ p, env.fileExists p = false →
      (Playlist.addTrack env (Track.file p) s).error.isSome = true ∧
      (Playlist.addTrack env (Track.file p) s).state = s) ∧
    (∀ d, Playlist.addTrack env (Track.buffer d) s =
      StepResult.pure { s with tracks := s.tracks ++ [Track.buffer d] }) := by
  refine ⟨fun p hp => ?_, fun p hp => ?_, fun d => rfl⟩
  · simp only [Playlist.addTrack]
    split
    · exact ⟨rfl, rfl⟩
    · rename_i hcond
      exfalso
      apply hcond
      rcases hp with h | h
      · exact Or.inl h
      · exact Or.inr (by simp [h])
  · simp only [Playlist.addTrack]
    split
    · exact ⟨rfl, rfl⟩
    · split
      · exact ⟨rfl, rfl⟩
      · rename_i h2
        exact absurd (by simp [hp]) h2

/-- Witness for C10 at concrete inputs: an unsupported extension throws and
leaves the state unchanged, a missing file throws, an (empty) buffer is
appended without error. -/
theorem C10_addTrack_atomic_witness :
    ((Playlist.extOf "x.xyz".toList).isEmpty = true ∨
      envMp3.formatSupported (Playlist.extOf "x.xyz".toList) = false) ∧
    (Playlist.addTrack envMp3 (Track.file "x.xyz".toList) sOne).error.isSome
      = true ∧
    (Playlist.addTrack envMp3 (Track.file "x.xyz".toList) sOne).state = sOne ∧
    ({ envMp3 with fileExists := fun _ => false }.fileExists "a.mp3".toList
      = false) ∧
    (Playlist.addTrack { envMp3 with fileExists := fun _ => false }
      (Track.file "a.mp3".toList) sOne).error.isSome = true ∧
    Playlist.addTrack envMp3 (Track.buffer []) sOne =
      StepResult.pure { sOne with tracks := sOne.tracks ++ [Track.buffer []] }
    := by
  have h := C10_addTrack_atomic envMp3 sOne
  have h2 := C10_addTrack_atomic { envMp3 with fileExists := fun _ => false }
    sOne
  have hx : envMp3.formatSupported (Playlist.extOf "x.xyz".toList) = false :=
    by decide
  refine ⟨Or.inr hx, (h.1 _ (Or.inr hx)).1, (h.1 _ (Or.inr hx)).2, rfl,
    (h2.2.1 "a.mp3".toList rfl).1, h.2.2 []⟩

/-- The polling loop of `waitForIdle` resolves by elapsed time
`timeoutMs + 50` whenever it starts within that window. -/
theorem waitCheck_le (busy : Nat → Bool) (timeoutMs : Nat) :
    ∀ n t, timeoutMs + 1 - t ≤ n → t ≤ timeoutMs + 50 →
      (Playlist.waitCheck busy timeoutMs t).1 ≤ timeoutMs + 50 := by
  intro n
  induction n with
  | zero =>
    intro t h0 ht
    unfold Playlist.waitCheck
    split
    · exact ht
    · split
      · exact ht
      · rename_i h1 h2
        omega
  | succ n ih =>
    intro t h0 ht
    unfold Playlist.waitCheck
    split
    · exact ht
    · split
      · exact ht
      · rename_i h1 h2
        exact ih (t + 50) (by omega) (by omega)

/-- If the busy flag never clears, the polling loop still resolves, with the
timeout warning. -/
theorem waitCheck_timeout (busy : Nat → Bool) (timeoutMs : Nat)
    (hb : ∀ t, busy t = true) :
    ∀ n t, timeoutMs + 1 - t ≤ n →
      (Playlist.waitCheck busy timeoutMs t).2 = true := by
  intro n
  induction n with
  | zero =>
    intro t h0
    unfold Playlist.waitCheck
    split
    · rename_i h1
      rw [hb t] at h1
      exact absurd h1 (by simp)
    · split
      · rfl
      · rename_i h1 h2
        omega
  | succ n ih =>
    intro t h0
    unfold Playlist.waitCheck
    split
    · rename_i h1
      rw [hb t] at h1
      exact absurd h1 (by simp)
    · split
      · rfl
      · rename_i h1 h2
        exact ih (t + 50) (by omega)

/-- C6: the busy-wait of the mutating operations always terminates within
bounded elapsed time — `waitForIdle` resolves at time 0 when the flag is
already clear, resolves no later than `timeoutMs + 50` in every case, and
when the flag never clears it resolves through the timeout branch (warning
logged, operation proceeds) instead of blocking indefinitely. -/
theorem C6_waitForIdle_terminates (busy : Nat → Bool) (timeoutMs : Nat) :
    (Playlist.waitForIdle busy timeoutMs).1 ≤ timeoutMs + 50 ∧
    (busy 0 = false → Playlist.waitForIdle busy timeoutMs = (0, false)) ∧
    ((∀ t, busy t = true) →
      (Playlist.waitForIdle busy timeoutMs).2 = true) := by
  refine ⟨waitCheck_le busy timeoutMs (timeoutMs + 1) 0 (by omega) (by omega),
    fun h0 => ?_, fun hb => waitCheck_timeout busy timeoutMs hb
      (timeoutMs + 1) 0 (by omega)⟩
  unfold Playlist.waitForIdle Playlist.waitCheck
  rw [if_pos h0]

/-- Witness for C6 with the flag stuck busy forever and the `nextTrack` idle
timeout (1000 ms): the wait still resolves, by 1050 ms, through the warning
branch. -/
theorem C6_waitForIdle_terminates_witness :
    (Playlist.waitForIdle (fun _ => true) Playlist.IDLE_TIMEOUT).1 ≤
      Playlist.IDLE_TIMEOUT + 50 ∧
    (Playlist.waitForIdle (fun _ => true) Playlist.IDLE_TIMEOUT).2 = true := by
  have h := C6_waitForIdle_terminates (fun _ => true) Playlist.IDLE_TIMEOUT
  exact ⟨h.1, h.2.2 (fun t => rfl)⟩

/-- C8: `getHelpers` returns a snapshot — a freshly allocated shallow copy of
the registry's map.  Its address differs from the registry's, its contents at
allocation time agree with the registry's, a later `register` (which mutates
the registry cell) leaves the snapshot's contents untouched, and overwriting
the snapshot object leaves the registry's contents untouched. -/
theorem C8_getHelpers_snapshot (h : HelperReg.Heap) (r : Nat)
    (hr : r < h.cells.length) :
    (HelperReg.getHelpers h r).2 ≠ r ∧
    (HelperReg.getHelpers h r).1.read (HelperReg.getHelpers h r).2 =
      h.read r ∧
    (∀ n f,
      (HelperReg.register (HelperReg.getHelpers h r).1 r n f).read
          (HelperReg.getHelpers h r).2 =
        (HelperReg.getHelpers h r).1.read (HelperReg.getHelpers h r).2) ∧
    (∀ m,
      ((HelperReg.getHelpers h r).1.write (HelperReg.getHelpers h r).2 m).read
          r =
        (HelperReg.getHelpers h r).1.read r) := by
  have hne : h.cells.length ≠ r := Nat.ne_of_gt hr
  refine ⟨hne, ?_, fun n f => ?_, fun m => ?_⟩
  · show ((h.cells ++ [h.read r]).get? h.cells.length).getD [] = h.read r
    rw [List.get?_concat_length]
    rfl
  · show (((h.cells ++ [h.read r]).set r _).get? h.cells.length).getD [] = _
    rw [List.get?_set_ne _ _ (fun he => hne he.symm)]
    rfl
  · show (((h.cells ++ [h.read r]).set h.cells.length m).get? r).getD [] = _
    rw [List.get?_set_ne _ _ hne]
    rfl

/-- Witness for C8 on a concrete one-cell heap holding one helper. -/
theorem C8_getHelpers_snapshot_witness :
    (HelperReg.getHelpers ⟨[[("clean", 1)]]⟩ 0).2 ≠ 0 ∧
    (HelperReg.getHelpers ⟨[[("clean", 1)]]⟩ 0).1.read
        (HelperReg.getHelpers ⟨[[("clean", 1)]]⟩ 0).2 =
      HelperReg.Heap.read ⟨[[("clean", 1)]]⟩ 0 ∧
    (HelperReg.register (HelperReg.getHelpers ⟨[[("clean", 1)]]⟩ 0).1 0
        "last" 2).read (HelperReg.getHelpers ⟨[[("clean", 1)]]⟩ 0).2 =
      (HelperReg.getHelpers ⟨[[("clean", 1)]]⟩ 0).1.read
        (HelperReg.getHelpers ⟨[[("clean", 1)]]⟩ 0).2 ∧
    ((HelperReg.getHelpers ⟨[[("clean", 1)]]⟩ 0).1.write
        (HelperReg.getHelpers ⟨[[("clean", 1)]]⟩ 0).2 []).read 0 =
      (HelperReg.getHelpers ⟨[[("clean", 1)]]⟩ 0).1.read 0 := by
  have h := C8_getHelpers_snapshot ⟨[[("clean", 1)]]⟩ 0 (by decide)
  exact ⟨h.1, h.2.1, h.2.2.1 "last" 2, h.2.2.2 []⟩

/-- `playCurrentTrack` never modifies the track list. -/
theorem playCurrentTrack_tracks (env : Env) (s : PlaylistState) :
    (Playlist.playCurrentTrack env s).state.tracks = s.tracks := by
  simp only [Playlist.playCurrentTrack]
  repeat' split
  all_goals rfl

/-- `playCurrentTrack` never modifies the cursor. -/
theorem playCurrentTrack_index (env : Env) (s : PlaylistState) :
    (Playlist.playCurrentTrack env s).state.currentTrackIndex =
      s.currentTrackIndex := by
  simp only [Playlist.playCurrentTrack]
  repeat' split
  all_goals rfl

/-- If `playCurrentTrack` ends with `isPlaying` set, either it was already
set on entry or the cursor denoted an existing track: with the cursor out of
range, the current-track lookup is `undefined` and the method returns before
touching `isPlaying`. -/
theorem playCurrentTrack_isPlaying (env : Env) (s : PlaylistState)
    (h : (Playlist.playCurrentTrack env s).state.isPlaying = true) :
    s.isPlaying = true ∨ s.currentTrackIndex < s.tracks.length := by
  by_cases hlt : s.currentTrackIndex < s.tracks.length
  · exact Or.inr hlt
  · left
    have hg : s.tracks.get? s.currentTrackIndex = none :=
      List.get?_eq_none.mpr (by omega)
    simp only [Playlist.playCurrentTrack] at h
    split at h
    · exact h
    · split at h
      · exact h
      · simp only [hg] at h
        exact h

/-- `playCurrentTrack` preserves the playing-cursor invariant. -/
theorem playCurrentTrack_inv (env : Env) (s : PlaylistState)
    (h : playingIndexInv s = true) :
    playingIndexInv (Playlist.playCurrentTrack env s).state = true := by
  unfold playingIndexInv at h ⊢
  rw [playCurrentTrack_tracks, playCurrentTrack_index]
  cases hres : (Playlist.playCurrentTrack env s).state.isPlaying with
  | false => simp
  | true =>
    rcases playCurrentTrack_isPlaying env s hres with hsp | hlt
    · rw [hsp] at h
      simpa using h
    · simp [hlt]

/-- `nextTrack` preserves the playing-cursor invariant. -/
theorem nextTrack_inv (env : Env) (s : PlaylistState)
    (h : playingIndexInv s = true) :
    playingIndexInv (Playlist.nextTrack env s).state = true := by
  have hlen : s.isPlaying = true → s.currentTrackIndex < s.tracks.length := by
    intro hsp
    unfold playingIndexInv at h
    rw [hsp] at h
    simpa using h
  simp only [Playlist.nextTrack]
  split
  · split
    · apply playCurrentTrack_inv
      unfold playingIndexInv
      cases hsp : s.isPlaying with
      | false => simp
      | true =>
        have := hlen hsp
        simp only [Bool.or_eq_true, decide_eq_true_eq]
        right
        simpa using by omega
    · simp [playingIndexInv]
  · rename_i hlt
    apply playCurrentTrack_inv
    unfold playingIndexInv
    simp only [Bool.or_eq_true, decide_eq_true_eq]
    right
    omega

/-- `previousTrack` preserves the playing-cursor invariant. -/
theorem previousTrack_inv (env : Env) (s : PlaylistState)
    (h : playingIndexInv s = true) :
    playingIndexInv (Playlist.previousTrack env s).state = true := by
  unfold Playlist.previousTrack
  apply playCurrentTrack_inv
  unfold playingIndexInv at h ⊢
  cases hsp : s.isPlaying with
  | false => simp
  | true =>
    rw [hsp] at h
    simp only [Bool.or_eq_true, decide_eq_true_eq] at h ⊢
    right
    rcases h with h | h
    · exact absurd h (by simp)
    · omega

/-- `goToTrack` preserves the playing-cursor invariant. -/
theorem goToTrack_inv (env : Env) (i : Int) (s : PlaylistState)
    (h : playingIndexInv s = true) :
    playingIndexInv (Playlist.goToTrack env i s).state = true := by
  unfold Playlist.goToTrack
  split
  · exact h
  · rename_i hrange
    apply playCurrentTrack_inv
    unfold playingIndexInv
    simp only [Bool.or_eq_true, decide_eq_true_eq]
    right
    omega

/-- `removeTrack` preserves the playing-cursor invariant. -/
theorem removeTrack_inv (env : Env) (i : Int) (s : PlaylistState)
    (h : playingIndexInv s = true) :
    playingIndexInv (Playlist.removeTrack env i s).1.state = true := by
  have hlen : s.isPlaying = true → s.currentTrackIndex < s.tracks.length := by
    intro hsp
    unfold playingIndexInv at h
    rw [hsp] at h
    simpa using h
  simp only [Playlist.removeTrack]
  split
  · exact h
  · rename_i hrange
    have hidx : i.toNat < s.tracks.length := by omega
    have herase : (s.tracks.eraseIdx i.toNat).length + 1 = s.tracks.length :=
      List.length_eraseIdx_add_one hidx
    split
    · rename_i hbefore
      cases hsp : s.isPlaying with
      | false => simp [playingIndexInv, StepResult.pure]
      | true =>
        have h1 := hlen hsp
        simp only [playingIndexInv, StepResult.pure, hsp, Bool.not_true,
          Bool.false_or, decide_eq_true_eq]
        omega
    · split
      · simp [playingIndexInv]
      · rename_i hbefore hcurr
        cases hsp : s.isPlaying with
        | false => simp [playingIndexInv, StepResult.pure]
        | true =>
          have h1 := hlen hsp
          have h2 : ¬ i.toNat < s.currentTrackIndex := hbefore
          have h3 : ¬ i.toNat = s.currentTrackIndex := fun he =>
            hcurr ⟨he, hsp⟩
          simp only [playingIndexInv, StepResult.pure, hsp, Bool.not_true,
            Bool.false_or, decide_eq_true_eq]
          omega

/-- A track that the device can load and play is not JavaScript-falsy. -/
theorem playable_not_falsy (env : Env) (t : Track)
    (h : playableTrack env t = true) : t.isFalsy = false := by
  cases t with
  | file p =>
    cases hp : p with
    | nil =>
      rw [hp] at h
      simp [playableTrack, jsTrim] at h
    | cons c cs => simp [Track.isFalsy]
  | buffer d => rfl

/-- Assembling `canPlayCleanly` for an idle, not-busy state whose current
track exists and is playable. -/
theorem canPlayCleanly_of_playable (env : Env) (s : PlaylistState) (t : Track)
    (hb : s.isBusy = false) (hp : s.isPlaying = false)
    (hg : s.tracks.get? s.currentTrackIndex = some t)
    (ht : playableTrack env t = true) :
    canPlayCleanly env s = true := by
  have hlt : s.currentTrackIndex < s.tracks.length := by
    by_contra hn
    rw [List.get?_eq_none.mpr (Nat.le_of_not_lt hn)] at hg
    exact Option.noConfusion hg
  have hlen : ¬ s.tracks.length = 0 := by omega
  rw [List.get?_eq_getElem?] at hg
  cases t with
  | file p =>
    have ht' : (¬ jsTrim p = [] ∧ env.loadFileOk p = true) ∧
        env.playOk = true := by
      simpa [playableTrack] using ht
    simp [canPlayCleanly, hg, hb, hp, hlen, ht'.1.1, ht'.1.2, ht'.2]
  | buffer d =>
    have ht' : (¬ d = [] ∧ env.loadBufferOk = true) ∧ env.playOk = true := by
      simpa [playableTrack] using ht
    simp [canPlayCleanly, hg, hb, hp, hlen, ht'.1.1, ht'.1.2, ht'.2]

/-- `nextTrack` in the middle of the playlist: increment and play. -/
theorem nextTrack_mid (env : Env) (s : PlaylistState)
    (hlt : s.currentTrackIndex + 1 < s.tracks.length) :
    Playlist.nextTrack env s =
      Playlist.playCurrentTrack env
        { s with currentTrackIndex := s.currentTrackIndex + 1 } := by
  simp only [Playlist.nextTrack]
  split
  · rename_i hc
    omega
  · rfl

/-- `nextTrack` at the last track with looping on: wrap to index 0 and
play. -/
theorem nextTrack_lastLoop (env : Env) (s : PlaylistState)
    (hlast : s.currentTrackIndex + 1 = s.tracks.length)
    (hloop : s.loop = true) :
    Playlist.nextTrack env s =
      Playlist.playCurrentTrack env { s with currentTrackIndex := 0 } := by
  simp [Playlist.nextTrack, hloop,
    show s.tracks.length ≤ s.currentTrackIndex + 1 by omega]

/-- `nextTrack` at the last track with looping off: fire `onPlaylistEnd`,
drop `isPlaying`, and issue no device call. -/
theorem nextTrack_lastEnd (env : Env) (s : PlaylistState)
    (hlast : s.currentTrackIndex + 1 = s.tracks.length)
    (hloop : s.loop = false) :
    Playlist.nextTrack env s =
      { state :=
          { s with
              currentTrackIndex := s.currentTrackIndex + 1,
              isPlaying := false, monitorActive := false },
        calls := [], events := [PEvent.playlistEnd], error := none } := by
  simp [Playlist.nextTrack, hloop,
    show s.tracks.length ≤ s.currentTrackIndex + 1 by omega]

/-- One monitor tick that observes completion ("was playing, now not
playing") reduces to the trackEnd callback followed by the `nextTrack`
continuation on the state with `isPlaying` dropped and the interval
cleared. -/
theorem monitorTick_advance (env : Env) (s : PlaylistState) (t0 : Track)
    (h1 : s.isPlaying = true) (h2 : env.playerIsPlaying = false)
    (h3 : env.isPlayingOk = true) (h4 : s.isStopping = false)
    (hg : s.tracks.get? s.currentTrackIndex = some t0)
    (hfalsy : t0.isFalsy = false) :
    Playlist.monitorTick env s =
      { Playlist.nextTrack env
            { s with monitorActive := false, isPlaying := false } with
          events := PEvent.trackEnd s.currentTrackIndex ::
            (Playlist.nextTrack env
              { s with monitorActive := false, isPlaying := false }).events }
      := by
  rw [List.get?_eq_getElem?] at hg
  simp [Playlist.monitorTick, h1, h2, h3, h4, hg, hfalsy]

/-- C7: when a completed track is detected by the poll (was playing, device
now idle) and the playlist advances — with a not-busy manager, an in-range
cursor and playable tracks throughout — then: with a next track remaining,
the cursor increments by exactly one and that track starts playing with
exactly one device `play`; at the last track with `loop` on, the cursor wraps
to 0 and playback restarts with exactly one `play`; at the last track with
`loop` off, the playlist-end callback fires, `isPlaying` ends false, and no
`play` is issued.  No branch throws. -/
theorem C7_completion_advance (env : Env) (s : PlaylistState)
    (h1 : s.isPlaying = true) (h2 : env.playerIsPlaying = false)
    (h3 : env.isPlayingOk = true) (h4 : s.isStopping = false)
    (h5 : s.isBusy = false) (h6 : s.currentTrackIndex < s.tracks.length)
    (h7 : ∀ t ∈ s.tracks, playableTrack env t = true) :
    (s.currentTrackIndex + 1 < s.tracks.length →
      (Playlist.monitorTick env s).state.currentTrackIndex =
        s.currentTrackIndex + 1 ∧
      (Playlist.monitorTick env s).state.isPlaying = true ∧
      playsIn (Playlist.monitorTick env s) = 1 ∧
      (Playlist.monitorTick env s).error = none) ∧
    (s.currentTrackIndex + 1 = s.tracks.length → s.loop = true →
      (Playlist.monitorTick env s).state.currentTrackIndex = 0 ∧
      (Playlist.monitorTick env s).state.isPlaying = true ∧
      playsIn (Playlist.monitorTick env s) = 1 ∧
      (Playlist.monitorTick env s).error = none) ∧
    (s.currentTrackIndex + 1 = s.tracks.length → s.loop = false →
      (Playlist.monitorTick env s).state.isPlaying = false ∧
      playsIn (Playlist.monitorTick env s) = 0 ∧
      PEvent.playlistEnd ∈ (Playlist.monitorTick env s).events ∧
      (Playlist.monitorTick env s).error = none) := by
  obtain ⟨t0, hg⟩ : ∃ a, s.tracks.get? s.currentTrackIndex = some a :=
    ⟨_, List.get?_eq_get h6⟩
  have hfalsy := playable_not_falsy env t0 (h7 t0 (List.get?_mem hg))
  have htick := monitorTick_advance env s t0 h1 h2 h3 h4 hg hfalsy
  refine ⟨fun hlt => ?_, fun hlast hloop => ?_, fun hlast hloop => ?_⟩
  · obtain ⟨t1, hg1⟩ : ∃ a, s.tracks.get? (s.currentTrackIndex + 1) = some a
      := ⟨_, List.get?_eq_get hlt⟩
    have hclean : canPlayCleanly env
        { s with
            monitorActive := false, isPlaying := false,
            currentTrackIndex := s.currentTrackIndex + 1 } = true :=
      canPlayCleanly_of_playable env _ t1 h5 rfl hg1
        (h7 t1 (List.get?_mem hg1))
    have hnt : Playlist.nextTrack env
        { s with monitorActive := false, isPlaying := false } =
        Playlist.playCurrentTrack env
          { s with
              monitorActive := false, isPlaying := false,
              currentTrackIndex := s.currentTrackIndex + 1 } :=
      nextTrack_mid env { s with monitorActive := false, isPlaying := false }
        hlt
    have hres := playCurrentTrack_clean env _ hclean
    rw [htick, hnt]
    exact ⟨by rw [hres.1], by rw [hres.1], hres.2.2.1, hres.2.1⟩
  · obtain ⟨t1, hg1⟩ : ∃ a, s.tracks.get? 0 = some a :=
      ⟨_, List.get?_eq_get (by omega)⟩
    have hclean : canPlayCleanly env
        { s with
            monitorActive := false, isPlaying := false,
            currentTrackIndex := 0 } = true :=
      canPlayCleanly_of_playable env _ t1 h5 rfl hg1
        (h7 t1 (List.get?_mem hg1))
    have hnt : Playlist.nextTrack env
        { s with monitorActive := false, isPlaying := false } =
        Playlist.playCurrentTrack env
          { s with
              monitorActive := false, isPlaying := false,
              currentTrackIndex := 0 } :=
      nextTrack_lastLoop env
        { s with monitorActive := false, isPlaying := false } hlast hloop
    have hres := playCurrentTrack_clean env _ hclean
    rw [htick, hnt]
    exact ⟨by rw [hres.1], by rw [hres.1], hres.2.2.1, hres.2.1⟩
  · have hnt := nextTrack_lastEnd env
      { s with monitorActive := false, isPlaying := false } hlast hloop
    rw [htick, hnt]
    exact ⟨rfl, rfl, by simp, rfl⟩

/-- Witness for C7 on a concrete two-track playlist playing the first track
while the device reports completion: the cursor advances to 1, playback
restarts, exactly one `play` is issued, and nothing is thrown. -/
theorem C7_completion_advance_witness :
    (Playlist.monitorTick envDone sTwo).state.currentTrackIndex =
      sTwo.currentTrackIndex + 1 ∧
    (Playlist.monitorTick envDone sTwo).state.isPlaying = true ∧
    playsIn (Playlist.monitorTick envDone sTwo) = 1 ∧
    (Playlist.monitorTick envDone sTwo).error = none := by
  have h := C7_completion_advance envDone sTwo (by decide) (by decide)
    (by decide) (by decide) (by decide) (by decide)
    (by intro t ht; fin_cases ht <;> decide)
  exact h.1 (by decide)

/-- C2 counterexample: the claim requires every public operation — including
`loadTracks` shrinking the list mid-playback — to keep `currentTrackIndex`
inside `[0, tracks.length)` while `isPlaying` holds, but `loadTracks` leaves
both the cursor and `isPlaying` untouched: replacing a three-track list
(playing track index 2) with a one-track list leaves the state playing with
`currentTrackIndex = 2 ≥ 1 = tracks.length`. -/
theorem C2_counterexample :
    playingIndexInv sPlay3 = true ∧
    (Playlist.loadTracks envMp3 [Track.file "a.mp3".toList] sPlay3).state.isPlaying
      = true ∧
    (Playlist.loadTracks envMp3 [Track.file "a.mp3".toList]
      sPlay3).state.currentTrackIndex = 2 ∧
    (Playlist.loadTracks envMp3 [Track.file "a.mp3".toList]
      sPlay3).state.tracks.length = 1 ∧
    playingIndexInv
      (Playlist.loadTracks envMp3 [Track.file "a.mp3".toList] sPlay3).state
      = false := by
  refine ⟨by decide, by decide, by decide, by decide, by decide⟩

/-- C2 amended: the playing-cursor invariant (`currentTrackIndex` in
`[0, tracks.length)` whenever `isPlaying`) is preserved by
`playCurrentTrack`, `nextTrack`, `previousTrack`, `goToTrack`, `removeTrack`
and `stop`, and every completed `stop()` resets `currentTrackIndex` to 0 —
but not by `loadTracks`, which leaves `currentTrackIndex` and `isPlaying`
unchanged, so replacing the list with a shorter one while a track is playing
can break the invariant (see the counterexample). -/
theorem C2_cursor_invariant (env : Env) (i : Int) (s : PlaylistState)
    (h : playingIndexInv s = true) :
    playingIndexInv (Playlist.playCurrentTrack env s).state = true ∧
    playingIndexInv (Playlist.nextTrack env s).state = true ∧
    playingIndexInv (Playlist.previousTrack env s).state = true ∧
    playingIndexInv (Playlist.goToTrack env i s).state = true ∧
    playingIndexInv (Playlist.removeTrack env i s).1.state = true ∧
    playingIndexInv (Playlist.stop env s).state = true ∧
    (Playlist.stop env s).state.currentTrackIndex = 0 :=
  ⟨playCurrentTrack_inv env s h, nextTrack_inv env s h,
    previousTrack_inv env s h, goToTrack_inv env i s h,
    removeTrack_inv env i s h, by simp [Playlist.stop, playingIndexInv,
      Playlist.stopBegin], rfl⟩

/-- Witness for C2 (amended) on a concrete playing state. -/
theorem C2_cursor_invariant_witness :
    playingIndexInv sTwo = true ∧
    playingIndexInv (Playlist.playCurrentTrack envAll sTwo).state = true ∧
    playingIndexInv (Playlist.nextTrack envAll sTwo).state = true ∧
    playingIndexInv (Playlist.previousTrack envAll sTwo).state = true ∧
    playingIndexInv (Playlist.goToTrack envAll 1 sTwo).state = true ∧
    playingIndexInv (Playlist.removeTrack envAll 1 sTwo).1.state = true ∧
    playingIndexInv (Playlist.stop envAll sTwo).state = true ∧
    (Playlist.stop envAll sTwo).state.currentTrackIndex = 0 := by
  have h := C2_cursor_invariant envAll 1 sTwo (by decide)
  exact ⟨by decide, h.1, h.2.1, h.2.2.1, h.2.2.2.1, h.2.2.2.2.1,
    h.2.2.2.2.2.1, h.2.2.2.2.2.2⟩

/-- C3 (the Rule Engine is external to the repository sources and is modelled
from the spec): in one `processEvent` dispatch, which invocations run — rule
by rule, action by action, in order — does not depend on which action handlers
fail: an action failure is caught and logged, and the remaining actions of its
rule as well as all actions of subsequent matching rules still execute. -/
theorem C3_action_failure_isolation (evalCond : Nat → Option Bool)
    (fails fails' : String → Nat → Bool) (rules : List Engine.Rule)
    (eventName : String) :
    (Engine.processEvent evalCond fails rules eventName).map
        (fun e => (e.ruleId, e.actionIdx, e.action)) =
      (Engine.processEvent evalCond fails' rules eventName).map
        (fun e => (e.ruleId, e.actionIdx, e.action)) := by
  unfold Engine.processEvent
  induction rules.filter
      (fun r => r.enabled && r.eventName == eventName &&
        Engine.condHolds evalCond r) with
  | nil => rfl
  | cons r rs ih =>
    simp only [List.flatMap_cons, List.map_append, ih]
    congr 1
    unfold Engine.runActions
    simp [List.map_map, Function.comp]
